import Mathlib

/-!
Shallow embedding of the COMA (Conclave of Many Agents) validation core:
the consensus evaluator, the provider response parser, critic selection,
the consultation fan-out, the validator pipeline's exit contract and the
hook entry point, translated from `src/coma-validator.js`,
`src/providers/openai.js`, the Claude Code provider and `src/claude-coma.js`.
Decisions are kept as the raw strings the JavaScript uses ("APPROVE",
"REJECT", "ERROR", ...), so that unknown decision strings flow through the
evaluator exactly as in the source.
-/

namespace Coma

/-- One acolyte's consultation outcome as `consultAcolytes` records it:
`{acolyteId, file, decision, reasoning}`. -/
structure ConsultationResult where
  acolyteId : String
  file : String
  decision : String
  reasoning : String
deriving Repr, DecidableEq

/-- The consensus verdict `{approved, reasoning}` returned by
`evaluateConsensus`. -/
structure ConsensusDecision where
  approved : Bool
  reasoning : String
deriving Repr, DecidableEq

/-- `* ${r.file}: ${r.reasoning}` -/
def renderItem (r : ConsultationResult) : String :=
  "* " ++ r.file ++ ": " ++ r.reasoning

/-- `* ${r.file}: ${r.decision} - ${r.reasoning}` -/
def renderUnknownItem (r : ConsultationResult) : String :=
  "* " ++ r.file ++ ": " ++ r.decision ++ " - " ++ r.reasoning

/-- `ComaValidator.evaluateConsensus` from `src/coma-validator.js` lines
218-256: filter the results into approvals, rejections, errors and unknown
decisions, then return the first matching verdict (rejections, then errors,
then unknown, else unanimous approval). -/
def evaluateConsensus (results : List ConsultationResult) : ConsensusDecision :=
  let approvals := results.filter (fun r => r.decision == "APPROVE")
  let rejections := results.filter (fun r => r.decision == "REJECT")
  let errors := results.filter (fun r => r.decision == "ERROR")
  let unknown := results.filter
    (fun r => !((["APPROVE", "REJECT", "ERROR"] : List String).contains r.decision))
  if 0 < rejections.length then
    { approved := false
      reasoning := "Operation blocked by " ++ toString rejections.length ++
        " acolyte(s):\n\n" ++ String.intercalate "\n\n" (rejections.map renderItem) }
  else if 0 < errors.length then
    { approved := false
      reasoning := "Acolyte consultation errors (" ++ toString errors.length ++
        "):\n\n" ++ String.intercalate "\n\n" (errors.map renderItem) }
  else if 0 < unknown.length then
    { approved := false
      reasoning := "Unknown decision types from " ++ toString unknown.length ++
        " acolyte(s):\n\n" ++ String.intercalate "\n\n" (unknown.map renderUnknownItem) }
  else
    { approved := true
      reasoning := "Unanimous approval from " ++ toString approvals.length ++ " acolyte(s)" }

/-! ## Provider response parsing (`parseResponse` of both providers) -/

/-- What `output.trim()` removes in JavaScript: whitespace and line
terminators at either end. -/
def jsWhitespace (c : Char) : Bool :=
  c == ' ' || c == '\t' || c == '\n' || c == '\r' ||
    c == '\x0b' || c == '\x0c' || c == '\u00a0' || c == '\ufeff'

/-- `s.trim()`: strip leading and trailing whitespace. -/
def jsTrim (s : String) : String :=
  String.mk (((s.data.dropWhile jsWhitespace).reverse.dropWhile jsWhitespace).reverse)

/-- `s.includes(pat)`: `pat` occurs as a contiguous substring of `s`. -/
def jsIncludes (s pat : String) : Bool :=
  decide (pat.data <:+: s.data)

/-- A provider's parsed consultation reply `{decision, reasoning}`. -/
structure ProviderResult where
  decision : String
  reasoning : String
deriving Repr, DecidableEq

/-- `parseResponse` as written identically in `src/providers/openai.js`
lines 74-89 and in the Claude Code provider: trim the raw output, then scan
for "APPROVE" first, "REJECT" second, "NEEDS_CONTEXT" third, defaulting to
the "UNCLEAR" decision. -/
def parseResponse (output : String) : ProviderResult :=
  let cleanOutput := jsTrim output
  if jsIncludes cleanOutput "APPROVE" then ⟨"APPROVE", cleanOutput⟩
  else if jsIncludes cleanOutput "REJECT" then ⟨"REJECT", cleanOutput⟩
  else if jsIncludes cleanOutput "NEEDS_CONTEXT" then ⟨"NEEDS_CONTEXT", cleanOutput⟩
  else ⟨"UNCLEAR", cleanOutput⟩

/-! ## The validator pipeline (`src/coma-validator.js`) -/

/-- One acolyte configuration `{id, file, systemPrompt}` from
`acolytes.json`. The `file` field is the critic's scope. -/
structure Acolyte where
  id : String
  file : String
  systemPrompt : String
deriving Repr, DecidableEq

/-- The parameters object of a tool call; the validator only ever reads its
`file_path` entry. -/
structure ToolParams where
  file_path : Option String
deriving Repr, DecidableEq

/-- A parsed tool call `{toolName, parameters}`. -/
structure ToolData where
  toolName : String
  parameters : Option ToolParams
deriving Repr, DecidableEq

/-- `getAffectedFiles` returns either a file list or the `'ALL_FILES'`
sentinel. -/
inductive AffectedFiles where
  | files : List String → AffectedFiles
  | allFiles : AffectedFiles
deriving Repr, DecidableEq

/-- `isModificationOperation`: the tool name is one of Edit, MultiEdit,
Write, Bash. -/
def isModificationOperation (toolData : ToolData) : Bool :=
  (["Edit", "MultiEdit", "Write", "Bash"] : List String).contains toolData.toolName

/-- The JavaScript truthiness test `parameters && parameters.file_path`:
the file path is used only when the parameters object exists and the
`file_path` entry is a non-empty string. -/
def truthyFilePath : Option ToolParams → Option String
  | none => none
  | some p =>
    match p.file_path with
    | some fp => if fp = "" then none else some fp
    | none => none

/-- `getAffectedFiles` from `src/coma-validator.js` lines 138-156:
Edit/MultiEdit/Write report the relativized `file_path` (or nothing when it
is absent), Bash reports the `'ALL_FILES'` sentinel, anything else reports
nothing. `relativize` stands for `relativizePath` (resolution against the
repository root, delegated to the path library). -/
def getAffectedFiles (relativize : String → String) (toolData : ToolData) : AffectedFiles :=
  if toolData.toolName = "Edit" ∨ toolData.toolName = "MultiEdit" ∨
      toolData.toolName = "Write" then
    match truthyFilePath toolData.parameters with
    | some fp => AffectedFiles.files [relativize fp]
    | none => AffectedFiles.files []
  else if toolData.toolName = "Bash" then AffectedFiles.allFiles
  else AffectedFiles.files []

/-- The relevant-acolyte filter from `src/coma-validator.js` lines 79-81:
all acolytes on the `'ALL_FILES'` sentinel, otherwise those whose `file`
appears in the affected-file list. -/
def selectRelevant (acolytes : List Acolyte) (affectedFiles : AffectedFiles) : List Acolyte :=
  match affectedFiles with
  | AffectedFiles.allFiles => acolytes
  | AffectedFiles.files fs => acolytes.filter (fun a => fs.contains a.file)

/-- `loadAcolytes` from `src/coma-validator.js` lines 162-170: a failed
configuration read is rethrown with the `Failed to load acolyte
configurations:` prefix. `readConfig` stands for the outcome of reading and
parsing `acolytes.json`. -/
def loadAcolytes (readConfig : Except String (List Acolyte)) : Except String (List Acolyte) :=
  match readConfig with
  | Except.ok acolytes => Except.ok acolytes
  | Except.error msg => Except.error ("Failed to load acolyte configurations: " ++ msg)

/-- The per-acolyte wrapper inside `consultAcolytes` (lines 187-208): a
fulfilled provider promise becomes that acolyte's result, a failed one is
caught and becomes that acolyte's `ERROR` result with the failure message
as reasoning. `consult` stands for `acolyteProvider.consultAcolyte` applied
to the enhanced tool data of the run. -/
def consultOne (consult : Acolyte → Except String ProviderResult) (acolyte : Acolyte) :
    ConsultationResult :=
  match consult acolyte with
  | Except.ok result => ⟨acolyte.id, acolyte.file, result.decision, result.reasoning⟩
  | Except.error msg => ⟨acolyte.id, acolyte.file, "ERROR", msg⟩

/-- `consultAcolytes` (lines 172-216): every acolyte is consulted and the
engine joins on the full set (`Promise.all`), producing one result per
acolyte. -/
def consultAcolytes (consult : Acolyte → Except String ProviderResult)
    (acolytes : List Acolyte) : List ConsultationResult :=
  acolytes.map (consultOne consult)

/-- The body of `validate` (lines 48-110) as a fallible computation of the
exit code: no tool data, a non-modification operation or an empty relevant
set exit 0; otherwise consultation and consensus decide between exit 0
(approved) and exit 1 (blocked); a configuration-load failure propagates as
an exception. -/
def validateCore (toolCall : Option ToolData) (readConfig : Except String (List Acolyte))
    (consult : Acolyte → Except String ProviderResult) (relativize : String → String) :
    Except String Nat :=
  match toolCall with
  | none => Except.ok 0
  | some toolData =>
    if !(isModificationOperation toolData) then Except.ok 0
    else
      let affectedFiles := getAffectedFiles relativize toolData
      match loadAcolytes readConfig with
      | Except.error msg => Except.error msg
      | Except.ok acolytes =>
        let relevantAcolytes := selectRelevant acolytes affectedFiles
        if relevantAcolytes.length = 0 then Except.ok 0
        else
          let results := consultAcolytes consult relevantAcolytes
          let decision := evaluateConsensus results
          if decision.approved then Except.ok 0 else Except.ok 1

/-- `validate` with its surrounding try/catch (lines 50 and 112-116): the
exit status together with the error line printed on the catch path
(`COMA: Validation error: <message>`, then `process.exit(1)`). -/
def validateOutcome (toolCall : Option ToolData) (readConfig : Except String (List Acolyte))
    (consult : Acolyte → Except String ProviderResult) (relativize : String → String) :
    Nat × Option String :=
  match validateCore toolCall readConfig consult relativize with
  | Except.ok code => (code, none)
  | Except.error msg => (1, some ("COMA: Validation error: " ++ msg))

/-! ## The hook entry point (`src/claude-coma.js` lines 334-358) -/

/-- What `handleHookCommand` does: exit with a status, or delegate to the
named handler (which spawns the validator or the context capturer). -/
inductive HookAction where
  | exit : Nat → HookAction
  | dispatch : String → HookAction
deriving Repr, DecidableEq

/-- JavaScript truthiness of an environment variable: set and non-empty. -/
def envTruthy : Option String → Bool
  | none => false
  | some s => s ≠ ""

/-- `handleHookCommand`: when `CLAUDE_COMA` is not set the hook exits 0 at
once (transparent mode) before any dispatch; otherwise it dispatches on the
hook type, exiting 1 on an unknown type. -/
def handleHookCommand (claudeComaEnv : Option String) (hookType : String) : HookAction :=
  if !(envTruthy claudeComaEnv) then HookAction.exit 0
  else if hookType = "PreToolUse" then HookAction.dispatch "PreToolUse"
  else if hookType = "PostToolUse" then HookAction.dispatch "PostToolUse"
  else if hookType = "UserPromptSubmit" then HookAction.dispatch "UserPromptSubmit"
  else HookAction.exit 1

/-! ## The Context Buffer -/

/-- The truncation marker the stored entry ends in, as the test
`test/test-context-capture.js` line 59 requires (`'...[truncated]'`). -/
def truncationMarker : String := "...[truncated]"

/-- Modelled from the spec: the repository's Context Buffer implementation
(`context-manager.js`, the `ContextManager` used by the validator and
exercised by `test/test-context-capture.js`) is not among the source files;
only its test and its callers are. Per §4.5 of the spec, `append` truncates
text exceeding 2000 characters to 2000 minus the length of the fixed
truncation marker and then appends the marker. -/
def truncateMessage (text : String) : String :=
  if 2000 < text.length then
    String.mk (text.data.take (2000 - truncationMarker.length) ++ truncationMarker.data)
  else text

/-- Modelled from the spec: one `append`/`storeMessage` call on the Context
Buffer, newest entry first; after insertion only the 5 most recent entries
are retained, oldest dropped (§4.5, and tests 1-3 of
`test/test-context-capture.js`). -/
def storeMessage (buffer : List String) (text : String) : List String :=
  (truncateMessage text :: buffer).take 5

/-- A sequence of `append` operations on the Context Buffer, oldest message
first. -/
def storeAll (buffer : List String) (msgs : List String) : List String :=
  msgs.foldl storeMessage buffer

/-! ## Spec-side definitions used for comparison -/

/-- The selection rule in the words of spec §4.2 and §3: a critic's scope
matches a resource "by exact path or by wildcard extension pattern"
(a scope `*.ext` matches any resource path ending in `.ext`). -/
def specScopeMatches (scope file : String) : Bool :=
  scope == file ||
    (decide (scope.data.take 2 = ['*', '.']) && decide (scope.data.drop 1 <:+ file.data))

/-- The evaluator approves exactly when the boolean scan
`results.all (·.decision == "APPROVE")` succeeds. Shared workhorse lemma. -/
theorem approved_eq_all (results : List ConsultationResult) :
    (evaluateConsensus results).approved =
      results.all (fun r => r.decision == "APPROVE") := by
  unfold evaluateConsensus
  dsimp only
  split_ifs with h1 h2 h3
  · obtain ⟨r, hrf⟩ := List.exists_mem_of_length_pos h1
    obtain ⟨hr, hd⟩ := List.mem_filter.mp hrf
    symm
    rw [List.all_eq_false]
    exact ⟨r, hr, by simp [eq_of_beq hd]⟩
  · obtain ⟨r, hrf⟩ := List.exists_mem_of_length_pos h2
    obtain ⟨hr, hd⟩ := List.mem_filter.mp hrf
    symm
    rw [List.all_eq_false]
    exact ⟨r, hr, by simp [eq_of_beq hd]⟩
  · obtain ⟨r, hrf⟩ := List.exists_mem_of_length_pos h3
    obtain ⟨hr, hd⟩ := List.mem_filter.mp hrf
    have hnot : r.decision ∉ (["APPROVE", "REJECT", "ERROR"] : List String) := by
      simpa using hd
    symm
    rw [List.all_eq_false]
    refine ⟨r, hr, ?_⟩
    simp only [beq_iff_eq]
    intro hA
    exact hnot (by simp [hA])
  · have e1 := List.length_eq_zero.mp (Nat.le_zero.mp (Nat.not_lt.mp h1))
    have e2 := List.length_eq_zero.mp (Nat.le_zero.mp (Nat.not_lt.mp h2))
    have e3 := List.length_eq_zero.mp (Nat.le_zero.mp (Nat.not_lt.mp h3))
    symm
    rw [List.all_eq_true]
    intro r hr
    have hR := List.filter_eq_nil_iff.mp e1 r hr
    have hE := List.filter_eq_nil_iff.mp e2 r hr
    have hU := List.filter_eq_nil_iff.mp e3 r hr
    simp only [beq_iff_eq] at hR hE
    by_cases hA : r.decision = "APPROVE"
    · simp [hA]
    by_cases hRr : r.decision = "REJECT"
    · exact absurd hRr hR
    by_cases hEr : r.decision = "ERROR"
    · exact absurd hEr hE
    exact absurd (by simp [hA, hRr, hEr]) hU

/-- Helper: `List.all` is invariant under permutation. -/
theorem perm_all {α : Type} (p : α → Bool) {l1 l2 : List α} (h : l1.Perm l2) :
    l1.all p = l2.all p := by
  induction h with
  | nil => rfl
  | cons x _ ih => simp [ih]
  | swap x y l => simp [Bool.and_left_comm]
  | trans _ _ ih1 ih2 => rw [ih1, ih2]

/-- Helper: truncating the right summand of an append at the take bound
does not change the take. -/
theorem take_append_take {α : Type} (a b : List α) (n : Nat) :
    (a ++ b.take n).take n = (a ++ b).take n := by
  rw [List.take_append_eq_append_take, List.take_append_eq_append_take, List.take_take]
  have hmin : (n - a.length) ⊓ n = n - a.length := by omega
  rw [hmin]

/-- Helper: closed form of the Context Buffer after a sequence of appends:
the truncated messages, newest first, capped at 5, atop what the (short)
buffer held. -/
theorem storeAll_closed (msgs : List String) (buffer : List String)
    (hb : buffer.length ≤ 5) :
    storeAll buffer msgs = ((msgs.map truncateMessage).reverse ++ buffer).take 5 := by
  induction msgs generalizing buffer with
  | nil => simp [storeAll, List.take_of_length_le hb]
  | cons m ms ih =>
    have hstep : storeAll buffer (m :: ms) = storeAll (storeMessage buffer m) ms := rfl
    have hlen : (storeMessage buffer m).length ≤ 5 := by
      rw [storeMessage, List.length_take]
      exact Nat.min_le_left _ _
    rw [hstep, ih (storeMessage buffer m) hlen, storeMessage, take_append_take]
    simp [List.append_assoc]

/-- C1: the consensus decision has `approved = true` if and only if every
consultation result's decision is `APPROVE`; in particular the empty
collection is approved. -/
theorem evaluateConsensus_approved_iff (results : List ConsultationResult) :
    ((evaluateConsensus results).approved = true ↔
      ∀ r ∈ results, r.decision = "APPROVE") ∧
    (evaluateConsensus []).approved = true := by
  constructor
  · rw [approved_eq_all]
    simp [List.all_eq_true]
  · rw [approved_eq_all]
    rfl

/-- C2 counterexample: a raw response containing both "APPROVE" and
"REJECT" is parsed as `APPROVE`, not `REJECT` — the scan checks the
approve keyword first, so it is approve-biased, not reject-biased as the
claim states. -/
theorem parseResponse_both_keywords_cex :
    jsIncludes (jsTrim "APPROVE REJECT") "APPROVE" = true ∧
    jsIncludes (jsTrim "APPROVE REJECT") "REJECT" = true ∧
    (parseResponse "APPROVE REJECT").decision = "APPROVE" ∧
    (parseResponse "APPROVE REJECT").decision ≠ "REJECT" := by
  refine ⟨by decide, by decide, by decide, by decide⟩

/-- C2 (amended): the decision scan is approve-biased — a response
containing "APPROVE" parses as `APPROVE` even when "REJECT" also appears;
"REJECT" wins only when "APPROVE" is absent; and a response containing
none of the recognized keywords ("APPROVE", "REJECT", "NEEDS_CONTEXT")
yields the unrecognized `UNCLEAR` decision. -/
theorem parseResponse_resolution (output : String) :
    (jsIncludes (jsTrim output) "APPROVE" = true →
      (parseResponse output).decision = "APPROVE") ∧
    (jsIncludes (jsTrim output) "APPROVE" = false →
      jsIncludes (jsTrim output) "REJECT" = true →
      (parseResponse output).decision = "REJECT") ∧
    (jsIncludes (jsTrim output) "APPROVE" = false →
      jsIncludes (jsTrim output) "REJECT" = false →
      jsIncludes (jsTrim output) "NEEDS_CONTEXT" = false →
      (parseResponse output).decision = "UNCLEAR") := by
  refine ⟨?_, ?_, ?_⟩ <;> intros <;> simp_all [parseResponse]

/-- C3: the evaluator applies its rules in fixed priority order, first
match winning: any `REJECT` blocks listing every rejecting acolyte;
otherwise any `ERROR` blocks listing every failing acolyte and message;
otherwise any unrecognized decision blocks listing the raw decision per
acolyte; otherwise it allows stating the count of approving acolytes
(which is then the whole collection). -/
theorem evaluateConsensus_priority (results : List ConsultationResult) :
    ((∃ r ∈ results, r.decision = "REJECT") →
      evaluateConsensus results =
        { approved := false
          reasoning := "Operation blocked by " ++
            toString (results.filter (fun r => r.decision == "REJECT")).length ++
            " acolyte(s):\n\n" ++ String.intercalate "\n\n"
              ((results.filter (fun r => r.decision == "REJECT")).map renderItem) }) ∧
    ((¬ ∃ r ∈ results, r.decision = "REJECT") →
      (∃ r ∈ results, r.decision = "ERROR") →
      evaluateConsensus results =
        { approved := false
          reasoning := "Acolyte consultation errors (" ++
            toString (results.filter (fun r => r.decision == "ERROR")).length ++
            "):\n\n" ++ String.intercalate "\n\n"
              ((results.filter (fun r => r.decision == "ERROR")).map renderItem) }) ∧
    ((¬ ∃ r ∈ results, r.decision = "REJECT") →
      (¬ ∃ r ∈ results, r.decision = "ERROR") →
      (∃ r ∈ results, r.decision ∉ (["APPROVE", "REJECT", "ERROR"] : List String)) →
      evaluateConsensus results =
        { approved := false
          reasoning := "Unknown decision types from " ++
            toString (results.filter (fun r =>
              !((["APPROVE", "REJECT", "ERROR"] : List String).contains r.decision))).length ++
            " acolyte(s):\n\n" ++ String.intercalate "\n\n"
              ((results.filter (fun r =>
                !((["APPROVE", "REJECT", "ERROR"] : List String).contains r.decision))).map
                renderUnknownItem) }) ∧
    ((∀ r ∈ results, r.decision = "APPROVE") →
      evaluateConsensus results =
        { approved := true
          reasoning := "Unanimous approval from " ++ toString results.length ++
            " acolyte(s)" }) := by
  refine ⟨?_, ?_, ?_, ?_⟩
  · rintro ⟨r, hr, hd⟩
    have hpos : 0 < (results.filter (fun r => r.decision == "REJECT")).length :=
      List.length_pos.mpr (List.ne_nil_of_mem (List.mem_filter.mpr ⟨hr, by simp [hd]⟩))
    unfold evaluateConsensus
    dsimp only
    rw [if_pos hpos]
  · intro hno hE
    obtain ⟨r, hr, hd⟩ := hE
    have hrej : (results.filter (fun r => r.decision == "REJECT")) = [] := by
      rw [List.filter_eq_nil_iff]
      intro x hx hb
      exact hno ⟨x, hx, eq_of_beq hb⟩
    have hpos : 0 < (results.filter (fun r => r.decision == "ERROR")).length :=
      List.length_pos.mpr (List.ne_nil_of_mem (List.mem_filter.mpr ⟨hr, by simp [hd]⟩))
    unfold evaluateConsensus
    dsimp only
    rw [if_neg (by rw [hrej]; simp), if_pos hpos]
  · intro hnoR hnoE hU
    obtain ⟨r, hr, hd⟩ := hU
    have hrej : (results.filter (fun r => r.decision == "REJECT")) = [] := by
      rw [List.filter_eq_nil_iff]
      intro x hx hb
      exact hnoR ⟨x, hx, eq_of_beq hb⟩
    have herr : (results.filter (fun r => r.decision == "ERROR")) = [] := by
      rw [List.filter_eq_nil_iff]
      intro x hx hb
      exact hnoE ⟨x, hx, eq_of_beq hb⟩
    have hpos : 0 < (results.filter (fun r =>
        !((["APPROVE", "REJECT", "ERROR"] : List String).contains r.decision))).length :=
      List.length_pos.mpr (List.ne_nil_of_mem (List.mem_filter.mpr ⟨hr, by simpa using hd⟩))
    unfold evaluateConsensus
    dsimp only
    rw [if_neg (by rw [hrej]; simp), if_neg (by rw [herr]; simp), if_pos hpos]
  · intro hall
    have hrej : (results.filter (fun r => r.decision == "REJECT")) = [] := by
      rw [List.filter_eq_nil_iff]
      intro x hx hb
      rw [hall x hx] at hb
      exact absurd (eq_of_beq hb) (by decide)
    have herr : (results.filter (fun r => r.decision == "ERROR")) = [] := by
      rw [List.filter_eq_nil_iff]
      intro x hx hb
      rw [hall x hx] at hb
      exact absurd (eq_of_beq hb) (by decide)
    have hunk : (results.filter (fun r =>
        !((["APPROVE", "REJECT", "ERROR"] : List String).contains r.decision))) = [] := by
      rw [List.filter_eq_nil_iff]
      intro x hx hb
      rw [hall x hx] at hb
      simp at hb
    have happ : (results.filter (fun r => r.decision == "APPROVE")) = results :=
      List.filter_eq_self.mpr (fun x hx => by simp [hall x hx])
    unfold evaluateConsensus
    dsimp only
    rw [if_neg (by rw [hrej]; simp), if_neg (by rw [herr]; simp),
      if_neg (by rw [hunk]; simp), happ]

/-- C4: an unhandled exception while determining the verdict surfaces as
Block — a configuration-load failure on a modification operation exits 1
printing the exception message, and in general whenever the pipeline
throws, the exit status is 1 (never the Allow status 0) with the message
printed. -/
theorem validate_fail_closed (td : ToolData) (e : String)
    (consult : Acolyte → Except String ProviderResult) (relativize : String → String)
    (hmod : isModificationOperation td = true) :
    validateOutcome (some td) (Except.error e) consult relativize =
      (1, some ("COMA: Validation error: " ++
        ("Failed to load acolyte configurations: " ++ e))) ∧
    ∀ (toolCall : Option ToolData) (readConfig : Except String (List Acolyte)) (msg : String),
      validateCore toolCall readConfig consult relativize = Except.error msg →
      validateOutcome toolCall readConfig consult relativize =
        (1, some ("COMA: Validation error: " ++ msg)) := by
  constructor
  · simp [validateOutcome, validateCore, loadAcolytes, hmod]
  · intro toolCall readConfig msg hcore
    simp [validateOutcome, hcore]

/-- Witness for C4 at a concrete failing configuration read. -/
theorem validate_fail_closed_witness :
    validateOutcome (some ⟨"Edit", none⟩) (Except.error "ENOENT")
        (fun _ => Except.error "unused") (fun s => s) =
      (1, some ("COMA: Validation error: " ++
        ("Failed to load acolyte configurations: " ++ "ENOENT"))) :=
  (validate_fail_closed ⟨"Edit", none⟩ "ENOENT" (fun _ => Except.error "unused")
    (fun s => s) (by decide)).1

/-- C5 counterexample: a critic whose scope is the wildcard extension
pattern `*.txt` matches the resource `a.txt` under the spec's selection
rule, yet the validator does not select it for a Write to `a.txt` — the
code matches scopes by exact path only. -/
theorem selection_wildcard_cex :
    specScopeMatches "*.txt" "a.txt" = true ∧
    getAffectedFiles (fun s => s) ⟨"Write", some ⟨some "a.txt"⟩⟩ =
      AffectedFiles.files ["a.txt"] ∧
    selectRelevant [⟨"w", "*.txt", "p"⟩]
      (getAffectedFiles (fun s => s) ⟨"Write", some ⟨some "a.txt"⟩⟩) = [] := by
  refine ⟨by decide, by decide, by decide⟩

/-- C5 (amended): for an event naming a specific resource, exactly those
critics whose scope equals the relativized resource path are selected
(exact string match only — wildcard extension scopes are not matched); for
a Shell event the full registered critic set is selected regardless of
scope. -/
theorem selection_exact_and_shell (acolytes : List Acolyte) (relativize : String → String)
    (tool fp : String) (params : Option ToolParams)
    (htool : tool = "Edit" ∨ tool = "MultiEdit" ∨ tool = "Write") (hfp : fp ≠ "") :
    (∀ a : Acolyte,
      a ∈ selectRelevant acolytes (getAffectedFiles relativize ⟨tool, some ⟨some fp⟩⟩) ↔
        a ∈ acolytes ∧ a.file = relativize fp) ∧
    selectRelevant acolytes (getAffectedFiles relativize ⟨"Bash", params⟩) = acolytes := by
  constructor
  · intro a
    have hget : getAffectedFiles relativize ⟨tool, some ⟨some fp⟩⟩ =
        AffectedFiles.files [relativize fp] := by
      unfold getAffectedFiles
      dsimp only
      rw [if_pos htool]
      simp [truthyFilePath, hfp]
    rw [hget]
    simp [selectRelevant, List.mem_filter]
  · have hget : getAffectedFiles relativize ⟨"Bash", params⟩ = AffectedFiles.allFiles := by
      unfold getAffectedFiles
      dsimp only
      rw [if_neg (by decide), if_pos rfl]
    rw [hget]
    rfl

/-- Witness for C5 (amended): the spec's Shell scenario — three registered
critics, a shell event, all three selected. -/
theorem selection_exact_and_shell_witness :
    selectRelevant [⟨"a1", "x.js", "p"⟩, ⟨"a2", "y.js", "p"⟩, ⟨"a3", "z.js", "p"⟩]
        (getAffectedFiles (fun s => s) ⟨"Bash", none⟩) =
      [⟨"a1", "x.js", "p"⟩, ⟨"a2", "y.js", "p"⟩, ⟨"a3", "z.js", "p"⟩] :=
  (selection_exact_and_shell [⟨"a1", "x.js", "p"⟩, ⟨"a2", "y.js", "p"⟩, ⟨"a3", "z.js", "p"⟩]
    (fun s => s) "Write" "a.txt" none (Or.inr (Or.inr rfl)) (by decide)).2

/-- C6: the consultation engine joins over the full critic set — one
result per selected acolyte, each determined solely by that acolyte's own
provider outcome; a provider failure becomes that acolyte's `ERROR` result
without touching siblings, and its presence makes the consensus verdict a
Block. -/
theorem consultAcolytes_join (consult : Acolyte → Except String ProviderResult)
    (acolytes : List Acolyte) :
    (consultAcolytes consult acolytes).length = acolytes.length ∧
    (∀ i : Nat, (consultAcolytes consult acolytes)[i]? =
      (acolytes[i]?).map (consultOne consult)) ∧
    (∀ a ∈ acolytes, ∀ msg, consult a = Except.error msg →
      (⟨a.id, a.file, "ERROR", msg⟩ : ConsultationResult) ∈ consultAcolytes consult acolytes ∧
      (evaluateConsensus (consultAcolytes consult acolytes)).approved = false) := by
  refine ⟨by simp [consultAcolytes], ?_, ?_⟩
  · intro i
    simp [consultAcolytes, List.getElem?_map]
  · intro a ha msg hmsg
    have hres : consultOne consult a = ⟨a.id, a.file, "ERROR", msg⟩ := by
      simp [consultOne, hmsg]
    have hmem : (⟨a.id, a.file, "ERROR", msg⟩ : ConsultationResult) ∈
        consultAcolytes consult acolytes := by
      rw [← hres]
      exact List.mem_map_of_mem _ ha
    refine ⟨hmem, ?_⟩
    rw [approved_eq_all, List.all_eq_false]
    exact ⟨⟨a.id, a.file, "ERROR", msg⟩, hmem, by simp⟩

/-- C7: with the activation flag `CLAUDE_COMA` absent from the
environment, the hook entry point exits 0 (transparent Allow) for every
hook type, before any dispatch could consult a critic. -/
theorem handleHook_transparent (hookType : String) :
    handleHookCommand none hookType = HookAction.exit 0 := rfl

/-- C8: after any sequence of appends the Context Buffer holds the at most
5 most recent entries, newest first (7 appends leave exactly 5), and a
message longer than 2000 characters is stored as its first
2000 - |marker| characters followed by the truncation marker — exactly
2000 characters, ending in the marker, with no fragment of the original
tail. -/
theorem contextBuffer_props (msgs : List String) (text : String)
    (h : 2000 < text.length) :
    storeAll [] msgs = ((msgs.map truncateMessage).reverse).take 5 ∧
    (storeAll [] msgs).length ≤ 5 ∧
    (msgs.length = 7 → (storeAll [] msgs).length = 5) ∧
    (truncateMessage text).length = 2000 ∧
    (truncateMessage text).data.drop (2000 - truncationMarker.length) =
      truncationMarker.data ∧
    (truncateMessage text).data.take (2000 - truncationMarker.length) =
      text.data.take (2000 - truncationMarker.length) := by
  have hclosed : storeAll [] msgs = ((msgs.map truncateMessage).reverse).take 5 := by
    have := storeAll_closed msgs [] (by simp)
    simpa using this
  have hdata : 2000 < text.data.length := h
  have htake : (text.data.take (2000 - truncationMarker.length)).length =
      2000 - truncationMarker.length := by
    rw [List.length_take]
    omega
  have htrunc : (truncateMessage text).data =
      text.data.take (2000 - truncationMarker.length) ++ truncationMarker.data := by
    rw [truncateMessage, if_pos h]
  refine ⟨hclosed, ?_, ?_, ?_, ?_, ?_⟩
  · rw [hclosed, List.length_take]
    omega
  · intro h7
    rw [hclosed, List.length_take, List.length_reverse, List.length_map, h7]
    decide
  · show (truncateMessage text).data.length = 2000
    rw [htrunc, List.length_append, htake]
    rfl
  · rw [htrunc]
    exact List.drop_left' htake
  · rw [htrunc]
    exact List.take_left' htake

/-- Witness for C8 at the test's concrete inputs: seven appended messages
leave exactly five entries. -/
theorem contextBuffer_props_witness :
    (storeAll [] ["m1", "m2", "m3", "m4", "m5", "m6", "m7"]).length = 5 :=
  (contextBuffer_props ["m1", "m2", "m3", "m4", "m5", "m6", "m7"]
    (String.mk (List.replicate 2500 'A' ++ ['E', 'N', 'D']))
    (by show 2000 < (List.replicate 2500 'A' ++ ['E', 'N', 'D']).length
        rw [List.length_append, List.length_replicate]
        norm_num)).2.2.1 rfl

/-- C9 counterexample: two rejecting results swapped by a permutation give
the same verdict flag but different rationale strings, so the evaluator's
full output is not permutation-invariant. -/
theorem evaluateConsensus_perm_cex :
    ([⟨"a1", "a.js", "REJECT", "bad A"⟩, ⟨"a2", "b.js", "REJECT", "bad B"⟩] :
        List ConsultationResult).Perm
      [⟨"a2", "b.js", "REJECT", "bad B"⟩, ⟨"a1", "a.js", "REJECT", "bad A"⟩] ∧
    evaluateConsensus
        [⟨"a1", "a.js", "REJECT", "bad A"⟩, ⟨"a2", "b.js", "REJECT", "bad B"⟩] ≠
      evaluateConsensus
        [⟨"a2", "b.js", "REJECT", "bad B"⟩, ⟨"a1", "a.js", "REJECT", "bad A"⟩] := by
  refine ⟨List.Perm.swap _ _ _, by decide⟩

/-- C9 (amended): the `approved` flag of the consensus decision is
invariant under every permutation of the result collection (the rationale
string is not, since it renders critics in input order). -/
theorem evaluateConsensus_approved_perm (l1 l2 : List ConsultationResult)
    (h : l1.Perm l2) :
    (evaluateConsensus l1).approved = (evaluateConsensus l2).approved := by
  rw [approved_eq_all, approved_eq_all]
  exact perm_all _ h

/-- Witness for C9 (amended) at a concrete two-element permutation. -/
theorem evaluateConsensus_approved_perm_witness :
    (evaluateConsensus
        [⟨"a1", "a.js", "APPROVE", "ok"⟩, ⟨"a2", "b.js", "REJECT", "no"⟩]).approved =
      (evaluateConsensus
        [⟨"a2", "b.js", "REJECT", "no"⟩, ⟨"a1", "a.js", "APPROVE", "ok"⟩]).approved :=
  evaluateConsensus_approved_perm _ _ (List.Perm.swap _ _ _)

/-- C10: an Edit/MultiEdit/Write event without a usable `file_path` entry
yields an empty affected-file list, so zero acolytes are selected and the
validator exits 0 (Allow) without any consultation — the outcome does not
depend on the provider at all. -/
theorem validate_no_filepath_allows (tool : String) (params : Option ToolParams)
    (readConfig : Except String (List Acolyte))
    (consult : Acolyte → Except String ProviderResult) (relativize : String → String)
    (htool : tool = "Edit" ∨ tool = "MultiEdit" ∨ tool = "Write")
    (hfp : truthyFilePath params = none) :
    getAffectedFiles relativize ⟨tool, params⟩ = AffectedFiles.files [] ∧
    (∀ acolytes : List Acolyte, selectRelevant acolytes (AffectedFiles.files []) = []) ∧
    (∀ acolytes : List Acolyte, readConfig = Except.ok acolytes →
      validateOutcome (some ⟨tool, params⟩) readConfig consult relativize = (0, none)) := by
  have hget : getAffectedFiles relativize ⟨tool, params⟩ = AffectedFiles.files [] := by
    unfold getAffectedFiles
    dsimp only
    rw [if_pos htool, hfp]
  have hsel : ∀ acolytes : List Acolyte,
      selectRelevant acolytes (AffectedFiles.files []) = [] := by
    intro acolytes
    simp [selectRelevant]
  refine ⟨hget, hsel, ?_⟩
  · intro acolytes hrc
    subst hrc
    have hmod : isModificationOperation ⟨tool, params⟩ = true := by
      rcases htool with h | h | h <;> simp [isModificationOperation, h]
    simp [validateOutcome, validateCore, hmod, loadAcolytes, hget, hsel]

/-- Witness for C10: a Write with no parameters at all is allowed with
exit status 0. -/
theorem validate_no_filepath_allows_witness :
    validateOutcome (some ⟨"Write", none⟩) (Except.ok [⟨"a1", "f.js", "p"⟩])
        (fun _ => Except.error "unused") (fun s => s) = (0, none) :=
  ((validate_no_filepath_allows "Write" none (Except.ok [⟨"a1", "f.js", "p"⟩])
    (fun _ => Except.error "unused") (fun s => s)
    (Or.inr (Or.inr rfl)) rfl).2.2) [⟨"a1", "f.js", "p"⟩] rfl

end Coma
